import Mathlib

/-!
Verification of the Vietnam personal-income-tax calculation core.

The repository ships two implementations of the same engine:
* a Go terminal wizard, `packages/cli/ui/tui.go` (package `ui`), and
* a Next.js page, `packages/app/src/pages/index.tsx`.

Both are shallowly embedded here over `ℚ` (the source uses IEEE doubles /
JS numbers; every computation involved is exact piecewise-linear rational
arithmetic, so `ℚ` is the faithful idealisation the spec itself uses).
Definitions keep the source names; where the two files use the same name
for slightly different code the web version gets a `TS` suffix.
-/

/-! ## Domain types (tui.go lines 18-38, index.tsx lines 8-20) -/

inductive Period where
  | monthly
  | annual
deriving DecidableEq

inductive SalaryMode where
  | gross
  | net
deriving DecidableEq

/-- A progressive bracket: `limit` is the width of income the bracket covers.
The web table marks the last bracket with `Infinity`, embedded as `none`;
the Go table uses the finite sentinel `1e18`, embedded as `some (10 ^ 18)`. -/
structure TaxBracket where
  limit : Option ℚ
  rate : ℚ
deriving DecidableEq

structure TaxBreakdown where
  rate : ℚ
  taxable : ℚ
  tax : ℚ
deriving DecidableEq

/-! ## Constants (tui.go lines 44-70, index.tsx lines 26-54; the web file
declares the same deduction/insurance constants under upper-case names with
identical values, so they are embedded once) -/

def PersonalDeduction : ℚ := 11000000

def DependentDeduction : ℚ := 4400000

def InsuranceCap : ℚ := 36000000

def EmployeeInsurance : List (String × ℚ) :=
  [("BHXH", 8/100), ("BHYT", 15/1000), ("BHTN", 1/100)]

def EmployerInsurance : List (String × ℚ) :=
  [("BHXH", 175/1000), ("BHYT", 3/100), ("BHTN", 1/100)]

/-- Go bracket table, tui.go lines 62-70: the last limit is the finite 1e18. -/
def TaxBrackets : List TaxBracket :=
  [⟨some 5000000, 5/100⟩, ⟨some 5000000, 10/100⟩, ⟨some 8000000, 15/100⟩,
   ⟨some 14000000, 20/100⟩, ⟨some 20000000, 25/100⟩, ⟨some 28000000, 30/100⟩,
   ⟨some (10 ^ 18), 35/100⟩]

/-- Web bracket table, index.tsx lines 46-54: the last limit is `Infinity`. -/
def TAX_BRACKETS : List TaxBracket :=
  [⟨some 5000000, 5/100⟩, ⟨some 5000000, 10/100⟩, ⟨some 8000000, 15/100⟩,
   ⟨some 14000000, 20/100⟩, ⟨some 20000000, 25/100⟩, ⟨some 28000000, 30/100⟩,
   ⟨none, 35/100⟩]

/-! ## Pure logic (tui.go lines 76-144, index.tsx lines 60-118) -/

/-- tui.go lines 133-138 define `min` by comparison; `Math.min` agrees on
rationals.  (Named `minQ` because `min` is taken in Lean.) -/
def minQ (a b : ℚ) : ℚ := if a < b then a else b

/-- tui.go lines 139-144 define `max` by comparison; `Math.max` agrees on
rationals. -/
def maxQ (a b : ℚ) : ℚ := if a > b then a else b

def toMonthly (v : ℚ) (p : Period) : ℚ :=
  if p = Period.annual then v / 12 else v

def sumRates (r : List (String × ℚ)) : ℚ :=
  (r.map Prod.snd).sum

/-- tui.go lines 91-99. -/
def clampInsuranceBase (gross : ℚ) (enabled : Bool) : ℚ :=
  if !enabled then 0
  else if gross > InsuranceCap then InsuranceCap
  else gross

/-- index.tsx lines 66-67: `enabled ? Math.min(gross, INSURANCE_CAP) : 0`. -/
def clampInsuranceBaseTS (gross : ℚ) (enabled : Bool) : ℚ :=
  if enabled then minQ gross InsuranceCap else 0

/-- `min bracket.limit remaining`; `Math.min(Infinity, r) = r` for the web
sentinel, embedded as the `none` case. -/
def appliedAmount (b : TaxBracket) (remain : ℚ) : ℚ :=
  match b.limit with
  | none => remain
  | some l => minQ l remain

/-- The bracket loop of tui.go lines 101-117 / index.tsx lines 69-93,
recursing over the portion of the bracket table not yet consumed. -/
def calculateTaxOver : List TaxBracket → ℚ → List TaxBreakdown × ℚ
  | [], _ => ([], 0)
  | b :: bs, remain =>
    if remain ≤ 0 then ([], 0)
    else
      let apply := appliedAmount b remain
      let tax := apply * b.rate
      let rest := calculateTaxOver bs (remain - apply)
      (⟨b.rate, apply, tax⟩ :: rest.1, tax + rest.2)

/-- Go `calculateTax`, tui.go lines 101-117. -/
def calculateTax (taxable : ℚ) : List TaxBreakdown × ℚ :=
  calculateTaxOver TaxBrackets taxable

/-- Web `calculateTaxBreakdown`, index.tsx lines 69-93. -/
def calculateTaxBreakdown (taxableIncome : ℚ) : List TaxBreakdown × ℚ :=
  calculateTaxOver TAX_BRACKETS taxableIncome

/-- The value of `remain` when the bracket loop exits. -/
def remainingAfter : List TaxBracket → ℚ → ℚ
  | [], remain => remain
  | b :: bs, remain =>
    if remain ≤ 0 then remain
    else remainingAfter bs (remain - appliedAmount b remain)

def sumTaxable (out : List TaxBreakdown) : ℚ :=
  (out.map TaxBreakdown.taxable).sum

/-- The forward gross→net body shared verbatim by the solver loop
(tui.go lines 122-127, index.tsx lines 104-113) and the result pipeline. -/
def netOfGross (bs : List TaxBracket) (gross dependents : ℚ) (insurance : Bool) : ℚ :=
  let base := clampInsuranceBase gross insurance
  let ins := base * sumRates EmployeeInsurance
  let deductions := PersonalDeduction + dependents * DependentDeduction + ins
  let taxable := maxQ 0 (gross - deductions)
  let tax := (calculateTaxOver bs taxable).2
  gross - ins - tax

/-- Forward gross→net with the web bracket table. -/
def grossToNet (gross dependents : ℚ) (insurance : Bool) : ℚ :=
  netOfGross TAX_BRACKETS gross dependents insurance

/-- Forward gross→net with the Go bracket table. -/
def grossToNetGo (gross dependents : ℚ) (insurance : Bool) : ℚ :=
  netOfGross TaxBrackets gross dependents insurance

/-- The `for i := 0; i < 20; i++` correction loop, counting remaining
iterations. -/
def solveLoop (bs : List TaxBracket) (targetNet dependents : ℚ) (insurance : Bool) :
    ℕ → ℚ → ℚ
  | 0, gross => gross
  | n + 1, gross =>
      solveLoop bs targetNet dependents insurance n
        (gross + (targetNet - netOfGross bs gross dependents insurance))

/-- Go `solveGrossFromNet`, tui.go lines 119-131: returns the 20th iterate
with no final clamp. -/
def solveGrossFromNet (targetNet dependents : ℚ) (insurance : Bool) : ℚ :=
  solveLoop TaxBrackets targetNet dependents insurance 20 targetNet

/-- Web `solveGrossFromNet`, index.tsx lines 96-118: `Math.max(0, gross)`
around the 20th iterate. -/
def solveGrossFromNetTS (targetNet dependents : ℚ) (insuranceEnabled : Bool) : ℚ :=
  maxQ 0 (solveLoop TAX_BRACKETS targetNet dependents insuranceEnabled 20 targetNet)

/-! ## The web result pipeline (index.tsx lines 171-211) -/

structure CalcData where
  grossMonthly : ℚ
  insuranceBase : ℚ
  employeeInsurance : ℚ
  employerInsurance : ℚ
  personalDeduction : ℚ
  dependentDeduction : ℚ
  totalDeductions : ℚ
  taxableIncome : ℚ
  breakdown : List TaxBreakdown
  totalTax : ℚ
  netMonthly : ℚ
  effectiveTaxRate : ℚ
  totalLaborCost : ℚ
deriving DecidableEq

/-- The `data` `useMemo` of index.tsx lines 171-211.  JS `grossMonthly ? t /
grossMonthly : 0` takes the `0` arm exactly when `grossMonthly` is zero. -/
def data (salaryMode : SalaryMode) (period : Period) (income dependents : ℚ)
    (insuranceEnabled : Bool) : CalcData :=
  let grossBase :=
    if salaryMode = SalaryMode.gross then income
    else solveGrossFromNetTS income dependents insuranceEnabled
  let grossMonthly := toMonthly grossBase period
  let insuranceBase := clampInsuranceBaseTS grossMonthly insuranceEnabled
  let employeeInsurance := insuranceBase * sumRates EmployeeInsurance
  let employerInsurance := insuranceBase * sumRates EmployerInsurance
  let personalDeduction := PersonalDeduction
  let dependentDeduction := dependents * DependentDeduction
  let totalDeductions := personalDeduction + dependentDeduction + employeeInsurance
  let taxableIncome := maxQ 0 (grossMonthly - totalDeductions)
  let r := calculateTaxBreakdown taxableIncome
  { grossMonthly := grossMonthly
    insuranceBase := insuranceBase
    employeeInsurance := employeeInsurance
    employerInsurance := employerInsurance
    personalDeduction := personalDeduction
    dependentDeduction := dependentDeduction
    totalDeductions := totalDeductions
    taxableIncome := taxableIncome
    breakdown := r.1
    totalTax := r.2
    netMonthly := grossMonthly - employeeInsurance - r.2
    effectiveTaxRate := if grossMonthly = 0 then 0 else r.2 / grossMonthly
    totalLaborCost := grossMonthly + employerInsurance }

/-- The gross amount computed at the top of the Go `resultView`,
tui.go lines 333-338: in net mode the period is never consulted. -/
def resultViewGross (mode : SalaryMode) (period : Period) (income dependents : ℚ)
    (insurance : Bool) : ℚ :=
  if mode = SalaryMode.gross then toMonthly income period
  else solveGrossFromNet income dependents insurance

/-! ## Basic facts about the helpers -/

theorem minQ_le_right (a b : ℚ) : minQ a b ≤ b := by
  unfold minQ; split_ifs with h <;> linarith

theorem minQ_pos {a b : ℚ} (ha : 0 < a) (hb : 0 < b) : 0 < minQ a b := by
  unfold minQ; split_ifs <;> linarith

theorem minQ_mono {l a b : ℚ} (h : a ≤ b) : minQ l a ≤ minQ l b := by
  unfold minQ; split_ifs <;> linarith

theorem minQ_lip {l a b : ℚ} (h : a ≤ b) : minQ l b - minQ l a ≤ b - a := by
  unfold minQ; split_ifs <;> linarith

theorem maxQ_zero_nonneg (x : ℚ) : 0 ≤ maxQ 0 x := by
  unfold maxQ; split_ifs <;> linarith

theorem maxQ_zero_eq_of_nonneg {x : ℚ} (h : 0 ≤ x) : maxQ 0 x = x := by
  unfold maxQ; split_ifs <;> linarith

theorem maxQ_zero_le {x c : ℚ} (hx : x ≤ c) (hc : 0 ≤ c) : maxQ 0 x ≤ c := by
  unfold maxQ; split_ifs <;> linarith

theorem maxQ_zero_mono {a b : ℚ} (h : a ≤ b) : maxQ 0 a ≤ maxQ 0 b := by
  unfold maxQ; split_ifs <;> linarith

theorem maxQ_zero_lip {a b : ℚ} (h : a ≤ b) : maxQ 0 b - maxQ 0 a ≤ b - a := by
  unfold maxQ; split_ifs <;> linarith

theorem sumRates_employee : sumRates EmployeeInsurance = 21/200 := by
  norm_num [sumRates, EmployeeInsurance]

theorem sumRates_employer : sumRates EmployerInsurance = 43/200 := by
  norm_num [sumRates, EmployerInsurance]

/-! ## Insurance-base clamp -/

theorem clampTS_eq (g : ℚ) (e : Bool) :
    clampInsuranceBaseTS g e = clampInsuranceBase g e := by
  cases e <;> simp [clampInsuranceBaseTS, clampInsuranceBase, minQ] <;>
    split_ifs <;> first | rfl | linarith

theorem clamp_nonneg {g : ℚ} (e : Bool) (hg : 0 ≤ g) :
    0 ≤ clampInsuranceBase g e := by
  cases e <;> simp [clampInsuranceBase, InsuranceCap] <;> (try split_ifs) <;> linarith

theorem clamp_le_self {g : ℚ} (e : Bool) (hg : 0 ≤ g) :
    clampInsuranceBase g e ≤ g := by
  cases e <;> simp [clampInsuranceBase, InsuranceCap] <;> (try split_ifs) <;> linarith

theorem clamp_le_cap (g : ℚ) (e : Bool) : clampInsuranceBase g e ≤ InsuranceCap := by
  cases e <;> simp [clampInsuranceBase, InsuranceCap] <;> (try split_ifs) <;> linarith

theorem clamp_mono {x y : ℚ} (e : Bool) (h : x ≤ y) :
    clampInsuranceBase x e ≤ clampInsuranceBase y e := by
  cases e <;> simp [clampInsuranceBase, InsuranceCap] <;> (try split_ifs) <;> linarith

theorem clamp_lip {x y : ℚ} (e : Bool) (h : x ≤ y) :
    clampInsuranceBase y e - clampInsuranceBase x e ≤ y - x := by
  cases e <;> simp [clampInsuranceBase, InsuranceCap] <;> (try split_ifs) <;> linarith

/-! ## Well-formedness of the two bracket tables -/

/-- Every configured rate lies in `[0, 7/20]` and every finite width is
positive. -/
def bracketOK (b : TaxBracket) : Prop :=
  0 ≤ b.rate ∧ b.rate ≤ 7/20 ∧ 0 < b.limit.getD 1

def goodBrackets (bs : List TaxBracket) : Prop := ∀ b ∈ bs, bracketOK b

theorem goodBrackets_go : goodBrackets TaxBrackets := by
  intro b hb
  fin_cases hb <;> norm_num [bracketOK]

theorem goodBrackets_ts : goodBrackets TAX_BRACKETS := by
  intro b hb
  fin_cases hb <;> norm_num [bracketOK]

/-! ## The applied amount per bracket -/

theorem applied_le (b : TaxBracket) (t : ℚ) : appliedAmount b t ≤ t := by
  rcases hL : b.limit with _ | l <;> simp [appliedAmount, hL, minQ_le_right]

theorem applied_pos {b : TaxBracket} (hb : bracketOK b) {t : ℚ} (ht : 0 < t) :
    0 < appliedAmount b t := by
  rcases hL : b.limit with _ | l
  · simpa [appliedAmount, hL] using ht
  · have hl : 0 < l := by simpa [hL] using hb.2.2
    simpa [appliedAmount, hL] using minQ_pos hl ht

theorem applied_nonneg {b : TaxBracket} (hb : bracketOK b) {t : ℚ} (ht : 0 < t) :
    0 ≤ appliedAmount b t := le_of_lt (applied_pos hb ht)

theorem applied_mono {b : TaxBracket} {t1 t2 : ℚ} (h : t1 ≤ t2) :
    appliedAmount b t1 ≤ appliedAmount b t2 := by
  rcases hL : b.limit with _ | l
  · simp only [appliedAmount, hL]; exact h
  · simp only [appliedAmount, hL]; exact minQ_mono h

theorem applied_lip {b : TaxBracket} {t1 t2 : ℚ} (h : t1 ≤ t2) :
    appliedAmount b t2 - appliedAmount b t1 ≤ t2 - t1 := by
  rcases hL : b.limit with _ | l
  · simp only [appliedAmount, hL]; linarith
  · simp only [appliedAmount, hL]; exact minQ_lip h

/-! ## The bracket loop: sign, bound, monotonicity, Lipschitz bound -/

theorem taxOver_nonpos (bs : List TaxBracket) {t : ℚ} (ht : t ≤ 0) :
    calculateTaxOver bs t = ([], 0) := by
  cases bs <;> simp [calculateTaxOver, ht]

theorem taxOver_nonneg {bs : List TaxBracket} (hbs : goodBrackets bs) (t : ℚ) :
    0 ≤ (calculateTaxOver bs t).2 := by
  induction bs generalizing t with
  | nil => simp [calculateTaxOver]
  | cons b bs ih =>
    by_cases ht : t ≤ 0
    · simp [calculateTaxOver, ht]
    · push_neg at ht
      have hb : bracketOK b := hbs b (by simp)
      have htail : goodBrackets bs := fun x hx => hbs x (by simp [hx])
      have h1 : 0 ≤ appliedAmount b t := applied_nonneg hb ht
      have h2 : 0 ≤ appliedAmount b t * b.rate := mul_nonneg h1 hb.1
      have h3 := ih htail (t - appliedAmount b t)
      simp only [calculateTaxOver, if_neg (not_le.mpr ht)]
      linarith

theorem taxOver_le_rate {bs : List TaxBracket} (hbs : goodBrackets bs) {t : ℚ}
    (ht : 0 ≤ t) : (calculateTaxOver bs t).2 ≤ 7/20 * t := by
  induction bs generalizing t with
  | nil => simp [calculateTaxOver]; linarith
  | cons b bs ih =>
    by_cases ht0 : t ≤ 0
    · simp [calculateTaxOver, ht0]; linarith
    · push_neg at ht0
      have hb : bracketOK b := hbs b (by simp)
      have htail : goodBrackets bs := fun x hx => hbs x (by simp [hx])
      have ha0 : 0 ≤ appliedAmount b t := applied_nonneg hb ht0
      have hat : appliedAmount b t ≤ t := applied_le b t
      have h2 : appliedAmount b t * b.rate ≤ 7/20 * appliedAmount b t := by
        have := mul_le_mul_of_nonneg_left hb.2.1 ha0
        linarith [this]
      have h3 := ih htail (t := t - appliedAmount b t) (by linarith)
      simp only [calculateTaxOver, if_neg (not_le.mpr ht0)]
      linarith

theorem taxOver_mono_lip {bs : List TaxBracket} (hbs : goodBrackets bs)
    {t1 t2 : ℚ} (h1 : 0 ≤ t1) (h12 : t1 ≤ t2) :
    (calculateTaxOver bs t1).2 ≤ (calculateTaxOver bs t2).2 ∧
      (calculateTaxOver bs t2).2 - (calculateTaxOver bs t1).2 ≤ 7/20 * (t2 - t1) := by
  induction bs generalizing t1 t2 with
  | nil => simp [calculateTaxOver]; linarith
  | cons b bs ih =>
    by_cases ht1 : t1 ≤ 0
    · -- the lower input emits nothing
      have e1 : (calculateTaxOver (b :: bs) t1).2 = 0 := by
        simp [taxOver_nonpos _ ht1]
      have hn : 0 ≤ (calculateTaxOver (b :: bs) t2).2 := taxOver_nonneg hbs t2
      have hl : (calculateTaxOver (b :: bs) t2).2 ≤ 7/20 * t2 :=
        taxOver_le_rate hbs (by linarith)
      constructor <;> rw [e1] <;> linarith
    · push_neg at ht1
      have ht2 : 0 < t2 := lt_of_lt_of_le ht1 h12
      have hb : bracketOK b := hbs b (by simp)
      have htail : goodBrackets bs := fun x hx => hbs x (by simp [hx])
      have hmono : appliedAmount b t1 ≤ appliedAmount b t2 := applied_mono h12
      have hlip : appliedAmount b t2 - appliedAmount b t1 ≤ t2 - t1 := applied_lip h12
      have ha1 : appliedAmount b t1 ≤ t1 := applied_le b t1
      have ha0 : 0 ≤ appliedAmount b t1 := applied_nonneg hb ht1
      have hu1 : 0 ≤ t1 - appliedAmount b t1 := by linarith
      have hu12 : t1 - appliedAmount b t1 ≤ t2 - appliedAmount b t2 := by linarith
      have htl := ih htail hu1 hu12
      have hr : (appliedAmount b t2 - appliedAmount b t1) * b.rate ≤
          7/20 * (appliedAmount b t2 - appliedAmount b t1) := by
        have := mul_le_mul_of_nonneg_left hb.2.1 (by linarith : 0 ≤ appliedAmount b t2 - appliedAmount b t1)
        linarith [this]
      have hrm : appliedAmount b t1 * b.rate ≤ appliedAmount b t2 * b.rate :=
        mul_le_mul_of_nonneg_right hmono hb.1
      simp only [calculateTaxOver, if_neg (not_le.mpr ht1), if_neg (not_le.mpr ht2)]
      constructor
      · linarith [htl.1]
      · nlinarith [htl.2, hr]

/-! ## Partition of the input across brackets -/

theorem remaining_add_sum (bs : List TaxBracket) (t : ℚ) :
    remainingAfter bs t + sumTaxable (calculateTaxOver bs t).1 = t := by
  induction bs generalizing t with
  | nil => simp [remainingAfter, calculateTaxOver, sumTaxable]
  | cons b bs ih =>
    by_cases ht : t ≤ 0
    · simp [remainingAfter, calculateTaxOver, sumTaxable, ht]
    · have h3 := ih (t - appliedAmount b t)
      simp only [remainingAfter, calculateTaxOver, if_neg ht, sumTaxable,
        List.map_cons, List.sum_cons] at *
      linarith

/-- Total width of a bracket table whose limits are all finite. -/
def limitsTotal (bs : List TaxBracket) : ℚ :=
  (bs.map (fun b => b.limit.getD 0)).sum

/-- All limits finite and non-negative (the Go table). -/
def allFinite (bs : List TaxBracket) : Prop :=
  ∀ b ∈ bs, ∃ l, b.limit = some l ∧ 0 ≤ l

theorem allFinite_go : allFinite TaxBrackets := by
  intro b hb
  fin_cases hb <;> exact ⟨_, rfl, by norm_num⟩

theorem limitsTotal_go : limitsTotal TaxBrackets = 1000000000080000000 := by
  norm_num [limitsTotal, TaxBrackets]

theorem sum_taxable_of_le_total {bs : List TaxBracket} (hfin : allFinite bs)
    {t : ℚ} (ht0 : 0 ≤ t) (htc : t ≤ limitsTotal bs) :
    sumTaxable (calculateTaxOver bs t).1 = t := by
  induction bs generalizing t with
  | nil =>
    have : t = 0 := le_antisymm (by simpa [limitsTotal] using htc) ht0
    simp [calculateTaxOver, sumTaxable, this]
  | cons b bs ih =>
    obtain ⟨l, hL, hl0⟩ := hfin b (by simp)
    have htail : allFinite bs := fun x hx => hfin x (by simp [hx])
    have hcap : limitsTotal (b :: bs) = l + limitsTotal bs := by
      simp [limitsTotal, hL]
    by_cases ht : t ≤ 0
    · have : t = 0 := le_antisymm ht ht0
      simp [calculateTaxOver, sumTaxable, this]
    · push_neg at ht
      have ha : appliedAmount b t = minQ l t := by
        simp [appliedAmount, hL]
      by_cases hlt : l < t
      · have hmin : minQ l t = l := by simp [minQ, hlt]
        have hrest : limitsTotal bs ≥ t - l := by rw [hcap] at htc; linarith
        have h3 := ih htail (t := t - l) (by linarith) (by linarith)
        simp only [calculateTaxOver, if_neg (not_le.mpr ht), sumTaxable,
          List.map_cons, List.sum_cons, ha, hmin] at *
        linarith
      · push_neg at hlt
        have hmin : minQ l t = t := by
          simp only [minQ]; split_ifs with h <;> linarith
        have hz : calculateTaxOver bs (t - t) = ([], 0) := taxOver_nonpos bs (by linarith)
        simp only [calculateTaxOver, if_neg (not_le.mpr ht), sumTaxable,
          List.map_cons, List.sum_cons, ha, hmin, hz]
        simp

/-! ## Structure of the emitted breakdown -/

theorem taxOver_length_le (bs : List TaxBracket) (t : ℚ) :
    (calculateTaxOver bs t).1.length ≤ bs.length := by
  induction bs generalizing t with
  | nil => simp [calculateTaxOver]
  | cons b bs ih =>
    by_cases ht : t ≤ 0
    · simp [calculateTaxOver, ht]
    · simp only [calculateTaxOver, if_neg ht, List.length_cons]
      exact Nat.succ_le_succ (ih _)

theorem taxOver_rates_take (bs : List TaxBracket) (t : ℚ) :
    (calculateTaxOver bs t).1.map TaxBreakdown.rate =
      (bs.map TaxBracket.rate).take (calculateTaxOver bs t).1.length := by
  induction bs generalizing t with
  | nil => simp [calculateTaxOver]
  | cons b bs ih =>
    by_cases ht : t ≤ 0
    · simp [calculateTaxOver, ht]
    · simp only [calculateTaxOver, if_neg ht, List.map_cons, List.length_cons,
        List.take_succ_cons, List.cons.injEq]
      exact ⟨trivial, ih _⟩

theorem taxOver_lines_pos {bs : List TaxBracket} (hbs : goodBrackets bs) (t : ℚ) :
    ∀ x ∈ (calculateTaxOver bs t).1, 0 < x.taxable ∧ 0 ≤ x.tax ∧ 0 ≤ x.rate := by
  induction bs generalizing t with
  | nil => simp [calculateTaxOver]
  | cons b bs ih =>
    by_cases ht : t ≤ 0
    · simp [calculateTaxOver, ht]
    · push_neg at ht
      have hb : bracketOK b := hbs b (by simp)
      have htail : goodBrackets bs := fun x hx => hbs x (by simp [hx])
      intro x hx
      simp only [calculateTaxOver, if_neg (not_le.mpr ht), List.mem_cons] at hx
      rcases hx with rfl | hx
      · refine ⟨applied_pos hb ht, ?_, hb.1⟩
        exact mul_nonneg (applied_nonneg hb ht) hb.1
      · exact ih htail _ x hx

/-! ## The amount withheld from a gross salary (insurance + tax) -/

/-- Employee insurance withheld from a gross monthly salary. -/
def insAmt (e : Bool) (g : ℚ) : ℚ :=
  clampInsuranceBase g e * sumRates EmployeeInsurance

/-- Taxable income at gross `g`, for fixed non-insurance deductions `c`. -/
def taxableAmt (c : ℚ) (e : Bool) (g : ℚ) : ℚ :=
  maxQ 0 (g - (c + insAmt e g))

/-- Everything withheld from gross `g`: employee insurance plus income tax. -/
def withheld (bs : List TaxBracket) (c : ℚ) (e : Bool) (g : ℚ) : ℚ :=
  insAmt e g + (calculateTaxOver bs (taxableAmt c e g)).2

theorem netOfGross_eq (bs : List TaxBracket) (g d : ℚ) (e : Bool) :
    netOfGross bs g d e =
      g - withheld bs (PersonalDeduction + d * DependentDeduction) e g := by
  simp only [netOfGross, withheld, insAmt, taxableAmt]
  ring

theorem insAmt_nonneg (e : Bool) {g : ℚ} (hg : 0 ≤ g) : 0 ≤ insAmt e g := by
  have := clamp_nonneg (g := g) e hg
  rw [insAmt, sumRates_employee]
  nlinarith

theorem insAmt_le_self (e : Bool) {g : ℚ} (hg : 0 ≤ g) : insAmt e g ≤ 21/200 * g := by
  have h1 := clamp_le_self (g := g) e hg
  have h2 := clamp_nonneg (g := g) e hg
  rw [insAmt, sumRates_employee]
  nlinarith

theorem insAmt_le_bound (e : Bool) (g : ℚ) : insAmt e g ≤ 3780000 := by
  have h1 := clamp_le_cap g e
  rw [InsuranceCap] at h1
  rw [insAmt, sumRates_employee]
  nlinarith

theorem insAmt_mono (e : Bool) {x y : ℚ} (h : x ≤ y) : insAmt e x ≤ insAmt e y := by
  have := clamp_mono (x := x) (y := y) e h
  rw [insAmt, insAmt, sumRates_employee]
  nlinarith

theorem insAmt_lip (e : Bool) {x y : ℚ} (h : x ≤ y) :
    insAmt e y - insAmt e x ≤ 21/200 * (y - x) := by
  have := clamp_lip (x := x) (y := y) e h
  rw [insAmt, insAmt, sumRates_employee]
  nlinarith

theorem taxableAmt_nonneg (c : ℚ) (e : Bool) (g : ℚ) : 0 ≤ taxableAmt c e g :=
  maxQ_zero_nonneg _

theorem taxableAmt_le_self {c : ℚ} (e : Bool) {g : ℚ} (hc : 0 ≤ c) (hg : 0 ≤ g) :
    taxableAmt c e g ≤ g := by
  have := insAmt_nonneg e hg
  exact maxQ_zero_le (by linarith) hg

theorem taxableAmt_mono (c : ℚ) (e : Bool) {x y : ℚ} (h : x ≤ y) :
    taxableAmt c e x ≤ taxableAmt c e y := by
  have h1 := insAmt_lip e h
  exact maxQ_zero_mono (by linarith)

theorem taxableAmt_lip (c : ℚ) (e : Bool) {x y : ℚ} (h : x ≤ y) :
    taxableAmt c e y - taxableAmt c e x ≤ (y - x) - (insAmt e y - insAmt e x) := by
  have h1 := insAmt_lip e h
  have := maxQ_zero_lip (a := x - (c + insAmt e x)) (b := y - (c + insAmt e y)) (by linarith)
  simp only [taxableAmt]
  linarith

theorem withheld_nonneg {bs : List TaxBracket} (hbs : goodBrackets bs) (c : ℚ)
    (e : Bool) {g : ℚ} (hg : 0 ≤ g) : 0 ≤ withheld bs c e g :=
  add_nonneg (insAmt_nonneg e hg) (taxOver_nonneg hbs _)

theorem withheld_mono {bs : List TaxBracket} (hbs : goodBrackets bs) (c : ℚ)
    (e : Bool) {x y : ℚ} (h : x ≤ y) : withheld bs c e x ≤ withheld bs c e y := by
  have h1 := insAmt_mono e h
  have h2 := (taxOver_mono_lip hbs (taxableAmt_nonneg c e x) (taxableAmt_mono c e h)).1
  simp only [withheld]
  linarith

theorem withheld_lip {bs : List TaxBracket} (hbs : goodBrackets bs) (c : ℚ)
    (e : Bool) {x y : ℚ} (h : x ≤ y) :
    withheld bs c e y - withheld bs c e x ≤ 1673/4000 * (y - x) := by
  have hins0 : insAmt e x ≤ insAmt e y := insAmt_mono e h
  have hins1 := insAmt_lip e h
  have htx := taxableAmt_mono c e h
  have htx0 := taxableAmt_nonneg c e x
  have htl := (taxOver_mono_lip hbs htx0 htx).2
  have hlp := taxableAmt_lip c e h
  simp only [withheld]
  linarith

theorem withheld_upper {bs : List TaxBracket} (hbs : goodBrackets bs) {c : ℚ}
    (e : Bool) {g : ℚ} (hc : 0 ≤ c) (hg : 0 ≤ g) :
    withheld bs c e g ≤ 3780000 + 7/20 * g := by
  have h1 := insAmt_le_bound e g
  have h2 := taxOver_le_rate hbs (taxableAmt_nonneg c e g)
  have h3 := taxableAmt_le_self e hc hg
  simp only [withheld]
  nlinarith

/-! ## The correction iteration of the net→gross solver -/

/-- The solver iterates starting from the seed `targetNet`. -/
def iterSeq (bs : List TaxBracket) (targetNet dependents : ℚ) (e : Bool) : ℕ → ℚ
  | 0 => targetNet
  | n + 1 =>
      targetNet + withheld bs (PersonalDeduction + dependents * DependentDeduction) e
        (iterSeq bs targetNet dependents e n)

theorem solveLoop_iterSeq (bs : List TaxBracket) (tN d : ℚ) (e : Bool) :
    ∀ n k, solveLoop bs tN d e n (iterSeq bs tN d e k) = iterSeq bs tN d e (n + k) := by
  intro n
  induction n with
  | zero => intro k; simp [solveLoop]
  | succ n ih =>
    intro k
    have harg : iterSeq bs tN d e k + (tN - netOfGross bs (iterSeq bs tN d e k) d e) =
        iterSeq bs tN d e (k + 1) := by
      rw [netOfGross_eq]
      simp only [iterSeq]
      ring
    calc solveLoop bs tN d e (n + 1) (iterSeq bs tN d e k)
        = solveLoop bs tN d e n (iterSeq bs tN d e (k + 1)) := by
          simp only [solveLoop]; rw [harg]
      _ = iterSeq bs tN d e (n + (k + 1)) := ih (k + 1)
      _ = iterSeq bs tN d e (n + 1 + k) := by ring_nf

theorem solveLoop_eq_iterSeq (bs : List TaxBracket) (tN d : ℚ) (e : Bool) :
    solveLoop bs tN d e 20 tN = iterSeq bs tN d e 20 := by
  simpa [iterSeq] using solveLoop_iterSeq bs tN d e 20 0

theorem iterSeq_invariant {bs : List TaxBracket} (hbs : goodBrackets bs)
    {tN d : ℚ} (e : Bool) (htN : 0 ≤ tN) (hd : 0 ≤ d) :
    ∀ n, 0 ≤ iterSeq bs tN d e n ∧
      iterSeq bs tN d e n ≤ iterSeq bs tN d e (n + 1) ∧
      iterSeq bs tN d e (n + 1) - iterSeq bs tN d e n ≤
        (1673/4000) ^ n * (3780000 + 7/20 * tN) := by
  have hc : 0 ≤ PersonalDeduction + d * DependentDeduction := by
    have : 0 ≤ d * DependentDeduction :=
      mul_nonneg hd (by norm_num [DependentDeduction])
    norm_num [PersonalDeduction]
    linarith
  intro n
  induction n with
  | zero =>
    refine ⟨htN, ?_, ?_⟩
    · have := withheld_nonneg hbs (PersonalDeduction + d * DependentDeduction) e htN
      simp only [iterSeq]
      linarith
    · have := withheld_upper hbs e hc htN
      simp only [iterSeq, pow_zero]
      linarith
  | succ n ih =>
    obtain ⟨h0, hmono, hdiff⟩ := ih
    have h0s : 0 ≤ iterSeq bs tN d e (n + 1) := le_trans h0 hmono
    have hW := withheld_mono hbs (PersonalDeduction + d * DependentDeduction) e hmono
    have hWl := withheld_lip hbs (PersonalDeduction + d * DependentDeduction) e hmono
    have hexp1 : iterSeq bs tN d e (n + 1) =
        tN + withheld bs (PersonalDeduction + d * DependentDeduction) e
          (iterSeq bs tN d e n) := rfl
    refine ⟨h0s, ?_, ?_⟩
    · show iterSeq bs tN d e (n + 1) ≤
        tN + withheld bs (PersonalDeduction + d * DependentDeduction) e
          (iterSeq bs tN d e (n + 1))
      linarith [hW, hexp1.le, hexp1.ge]
    · have hL : (1673/4000 : ℚ) * (iterSeq bs tN d e (n + 1) - iterSeq bs tN d e n) ≤
          (1673/4000) * ((1673/4000) ^ n * (3780000 + 7/20 * tN)) := by
        nlinarith
      have hpow : (1673/4000 : ℚ) * ((1673/4000) ^ n * (3780000 + 7/20 * tN)) =
          (1673/4000) ^ (n + 1) * (3780000 + 7/20 * tN) := by
        rw [pow_succ]; ring
      show tN + withheld bs (PersonalDeduction + d * DependentDeduction) e
            (iterSeq bs tN d e (n + 1)) -
          iterSeq bs tN d e (n + 1) ≤ (1673/4000) ^ (n + 1) * (3780000 + 7/20 * tN)
      rw [← hpow]
      linarith [hWl, hL, hexp1.le, hexp1.ge]

/-! ## Round-trip accuracy of the 20-iteration solver -/

theorem roundTrip_core {bs : List TaxBracket} (hbs : goodBrackets bs)
    {tN d : ℚ} (e : Bool) (htN : 0 ≤ tN) (hd : 0 ≤ d) (hB : tN ≤ 90000000) :
    0 ≤ solveLoop bs tN d e 20 tN ∧
      |netOfGross bs (solveLoop bs tN d e 20 tN) d e - tN| ≤ 1 := by
  obtain ⟨h0, hm, hdf⟩ := iterSeq_invariant hbs e htN hd 20
  rw [solveLoop_eq_iterSeq]
  have hWexp : iterSeq bs tN d e 21 =
      tN + withheld bs (PersonalDeduction + d * DependentDeduction) e
        (iterSeq bs tN d e 20) := rfl
  have hnum : (1673/4000 : ℚ) ^ 20 * (3780000 + 7/20 * tN) ≤ 1 := by
    have h1 : (3780000 + 7/20 * tN : ℚ) ≤ 35280000 := by linarith
    have h2 : (0:ℚ) ≤ (1673/4000 : ℚ) ^ 20 := by positivity
    calc (1673/4000 : ℚ) ^ 20 * (3780000 + 7/20 * tN)
        ≤ (1673/4000 : ℚ) ^ 20 * 35280000 := mul_le_mul_of_nonneg_left h1 h2
      _ ≤ 1 := by norm_num
  refine ⟨h0, ?_⟩
  rw [netOfGross_eq, abs_le]
  constructor <;> linarith [hWexp.le, hWexp.ge, hdf, hm]

/-! ## Bridges between the web pipeline and the shared helper functions -/

theorem toMonthly_monthly (v : ℚ) : toMonthly v Period.monthly = v := rfl

theorem toMonthly_annual (v : ℚ) : toMonthly v Period.annual = v / 12 := rfl

theorem toMonthly_nonneg {v : ℚ} (p : Period) (hv : 0 ≤ v) : 0 ≤ toMonthly v p := by
  cases p
  · rw [toMonthly_monthly]; exact hv
  · rw [toMonthly_annual]; positivity

theorem data_gross_monthly_net (g d : ℚ) (e : Bool) :
    (data SalaryMode.gross Period.monthly g d e).netMonthly = grossToNet g d e := by
  simp only [data, grossToNet, netOfGross, calculateTaxBreakdown, clampTS_eq,
    toMonthly_monthly, maxQ, if_pos rfl, eq_self_iff_true, if_true]

theorem data_grossMonthly_nonneg (mode : SalaryMode) (period : Period) {I : ℚ}
    (d : ℚ) (e : Bool) (hI : 0 ≤ I) : 0 ≤ (data mode period I d e).grossMonthly := by
  cases mode
  · simpa [data] using toMonthly_nonneg period hI
  · have h : 0 ≤ solveGrossFromNetTS I d e := maxQ_zero_nonneg _
    simpa [data] using toMonthly_nonneg period h

/-! ## Claim theorems -/

/-- C6: for every gross amount, `clampInsuranceBase` returns 0 when insurance
is disabled; when enabled it returns `min(gross, 36,000,000)` — the cap for
gross above the cap and the gross itself at or below it.  The web clamp
(`clampInsuranceBaseTS`) behaves identically. -/
theorem clampInsuranceBase_characterisation (g : ℚ) :
    clampInsuranceBase g false = 0 ∧
    clampInsuranceBaseTS g false = 0 ∧
    clampInsuranceBase g true = minQ g 36000000 ∧
    clampInsuranceBaseTS g true = minQ g 36000000 ∧
    clampInsuranceBase g true = (if 36000000 < g then 36000000 else g) := by
  refine ⟨rfl, rfl, ?_, ?_, ?_⟩ <;>
    simp only [clampInsuranceBase, clampInsuranceBaseTS, InsuranceCap, minQ,
      Bool.not_true, Bool.false_eq_true, if_false, if_true] <;>
    split_ifs <;> first | rfl | linarith

/-- C7: for every taxable income at most 0, both `calculateTax` (CLI) and
`calculateTaxBreakdown` (web) return an empty breakdown and zero total tax:
the first bracket check fails immediately. -/
theorem calculateTax_nonpos_empty {t : ℚ} (ht : t ≤ 0) :
    calculateTax t = ([], 0) ∧ calculateTaxBreakdown t = ([], 0) :=
  ⟨taxOver_nonpos _ ht, taxOver_nonpos _ ht⟩

/-- C7 witness at taxable income 0. -/
theorem calculateTax_nonpos_empty_witness :
    calculateTax 0 = ([], 0) ∧ calculateTaxBreakdown 0 = ([], 0) :=
  calculateTax_nonpos_empty le_rfl

/-- C10: for every taxable income, the CLI breakdown has at most 7 lines, each
emitted line has a strictly positive taxable amount, and the lines carry
exactly the first `length` rates of the fixed bracket table in order — no
bracket is skipped before the last visited one. -/
theorem calculateTax_breakdown_shape (t : ℚ) :
    (calculateTax t).1.length ≤ 7 ∧
    (∀ x ∈ (calculateTax t).1, 0 < x.taxable) ∧
    (calculateTax t).1.map TaxBreakdown.rate =
      (TaxBrackets.map TaxBracket.rate).take (calculateTax t).1.length := by
  refine ⟨?_, ?_, taxOver_rates_take TaxBrackets t⟩
  · simpa [TaxBrackets] using taxOver_length_le TaxBrackets t
  · intro x hx
    exact (taxOver_lines_pos goodBrackets_go t x hx).1

/-- C10 witness at taxable income 6,900,000 (two lines). -/
theorem calculateTax_breakdown_shape_witness :
    (calculateTax 6900000).1.length ≤ 7 ∧
    (∀ x ∈ (calculateTax 6900000).1, 0 < x.taxable) ∧
    (calculateTax 6900000).1.map TaxBreakdown.rate =
      (TaxBrackets.map TaxBracket.rate).take (calculateTax 6900000).1.length :=
  calculateTax_breakdown_shape 6900000

/-- C1 counterexample: the claim quantifies over every non-negative taxable
income, but the CLI's final bracket width is the finite 1e18, so at
2·10^18 the loop exhausts all brackets leaving a positive remainder and the
emitted taxable amounts sum to 10^18 + 80,000,000 rather than the input. -/
theorem calculateTax_partition_fails_beyond_capacity :
    sumTaxable (calculateTax (2 * 10 ^ 18)).1 ≠ 2 * 10 ^ 18 ∧
    remainingAfter TaxBrackets (2 * 10 ^ 18) ≠ 0 := by
  constructor <;>
    norm_num [sumTaxable, calculateTax, calculateTaxOver, TaxBrackets,
      appliedAmount, minQ, remainingAfter]

/-- C1 (amended): for every taxable income between 0 and the table's total
width 10^18 + 80,000,000, the emitted per-bracket taxable amounts sum
exactly to the input and the loop terminates with `remain = 0`. -/
theorem calculateTax_partition_within_capacity {t : ℚ} (h0 : 0 ≤ t)
    (hc : t ≤ 1000000000080000000) :
    sumTaxable (calculateTax t).1 = t ∧ remainingAfter TaxBrackets t = 0 := by
  have hsum : sumTaxable (calculateTaxOver TaxBrackets t).1 = t :=
    sum_taxable_of_le_total allFinite_go h0 (by rw [limitsTotal_go]; exact hc)
  have hrem := remaining_add_sum TaxBrackets t
  refine ⟨hsum, ?_⟩
  linarith

/-- C1 witness at taxable income 30,200,000 (the spec's scenario 3). -/
theorem calculateTax_partition_witness :
    sumTaxable (calculateTax 30200000).1 = 30200000 ∧
    remainingAfter TaxBrackets 30200000 = 0 :=
  calculateTax_partition_within_capacity (by norm_num) (by norm_num)

/-- C4: the forward gross→net map is monotone: raising the gross monthly
salary (same dependents, same insurance flag) never lowers the net, in the
web forward map, the CLI forward map, and the web result pipeline. -/
theorem netMonthly_monotone (d : ℚ) (e : Bool) {g1 g2 : ℚ} (h0 : 0 ≤ g1)
    (h12 : g1 < g2) :
    grossToNet g1 d e ≤ grossToNet g2 d e ∧
    grossToNetGo g1 d e ≤ grossToNetGo g2 d e ∧
    (data SalaryMode.gross Period.monthly g1 d e).netMonthly ≤
      (data SalaryMode.gross Period.monthly g2 d e).netMonthly := by
  have key : ∀ bs : List TaxBracket, goodBrackets bs →
      netOfGross bs g1 d e ≤ netOfGross bs g2 d e := by
    intro bs hbs
    rw [netOfGross_eq, netOfGross_eq]
    have hlip := withheld_lip hbs (PersonalDeduction + d * DependentDeduction) e h12.le
    linarith
  refine ⟨key _ goodBrackets_ts, key _ goodBrackets_go, ?_⟩
  rw [data_gross_monthly_net, data_gross_monthly_net]
  exact key _ goodBrackets_ts

/-- C4 witness at gross 10,000,000 versus 20,000,000. -/
theorem netMonthly_monotone_witness :
    grossToNet 10000000 0 true ≤ grossToNet 20000000 0 true ∧
    grossToNetGo 10000000 0 true ≤ grossToNetGo 20000000 0 true ∧
    (data SalaryMode.gross Period.monthly 10000000 0 true).netMonthly ≤
      (data SalaryMode.gross Period.monthly 20000000 0 true).netMonthly :=
  netMonthly_monotone 0 true (by norm_num) (by norm_num)

/-- Projection identity for the effective tax rate of the web pipeline. -/
theorem data_effectiveTaxRate_eq (mode : SalaryMode) (period : Period)
    (I d : ℚ) (e : Bool) :
    (data mode period I d e).effectiveTaxRate =
      if (data mode period I d e).grossMonthly = 0 then 0
      else (data mode period I d e).totalTax / (data mode period I d e).grossMonthly :=
  rfl

/-- C8: for every non-negative income, the computed gross monthly salary is
never negative, so the effective tax rate is `totalTax / grossMonthly`
whenever the gross is positive and the guarded zero branch is taken exactly
when the gross is zero — the division-by-zero case never runs. -/
theorem effectiveTaxRate_guarded (mode : SalaryMode) (period : Period) {I : ℚ}
    (d : ℚ) (e : Bool) (hI : 0 ≤ I) :
    ((data mode period I d e).grossMonthly = 0 ∧
      (data mode period I d e).effectiveTaxRate = 0) ∨
    (0 < (data mode period I d e).grossMonthly ∧
      (data mode period I d e).effectiveTaxRate =
        (data mode period I d e).totalTax / (data mode period I d e).grossMonthly) := by
  have hg := data_grossMonthly_nonneg mode period d e hI
  rcases eq_or_lt_of_le hg with h | h
  · left
    refine ⟨h.symm, ?_⟩
    rw [data_effectiveTaxRate_eq, if_pos h.symm]
  · right
    refine ⟨h, ?_⟩
    rw [data_effectiveTaxRate_eq, if_neg (ne_of_gt h)]

/-- C8 witness at a 20,000,000 gross monthly input. -/
theorem effectiveTaxRate_guarded_witness :
    ((data SalaryMode.gross Period.monthly 20000000 0 true).grossMonthly = 0 ∧
      (data SalaryMode.gross Period.monthly 20000000 0 true).effectiveTaxRate = 0) ∨
    (0 < (data SalaryMode.gross Period.monthly 20000000 0 true).grossMonthly ∧
      (data SalaryMode.gross Period.monthly 20000000 0 true).effectiveTaxRate =
        (data SalaryMode.gross Period.monthly 20000000 0 true).totalTax /
          (data SalaryMode.gross Period.monthly 20000000 0 true).grossMonthly) :=
  effectiveTaxRate_guarded SalaryMode.gross Period.monthly 0 true (by norm_num)

/-- C5 counterexample: with a Net-mode Annual input of 240,000,000 the web
pipeline's gross monthly is NOT the inversion of the monthly target
240,000,000 / 12: the code solves on the raw annual amount first and divides
by 12 afterwards, and the two orders disagree. -/
theorem period_normalisation_counterexample :
    (data SalaryMode.net Period.annual 240000000 0 true).grossMonthly ≠
      solveGrossFromNetTS (240000000 / 12) 0 true := by
  have h : (data SalaryMode.net Period.annual 240000000 0 true).grossMonthly =
      solveGrossFromNetTS 240000000 0 true / 12 := by
    simp [data, toMonthly_annual]
  rw [h]
  norm_num [solveGrossFromNetTS, solveLoop, netOfGross, clampInsuranceBase,
    sumRates, EmployeeInsurance, PersonalDeduction, DependentDeduction,
    InsuranceCap, maxQ, calculateTaxOver, TAX_BRACKETS, appliedAmount, minQ]

/-- C5 (amended): in Net mode the engine does not normalise the period before
solving.  The web pipeline runs the inversion on the raw income and only then
divides the solved gross by 12 for Annual inputs; the CLI ignores the period
entirely in Net mode and treats the input as a monthly target. -/
theorem period_applied_after_solving (I d : ℚ) (e : Bool) :
    (data SalaryMode.net Period.annual I d e).grossMonthly =
      solveGrossFromNetTS I d e / 12 ∧
    resultViewGross SalaryMode.net Period.annual I d e =
      solveGrossFromNet I d e := by
  constructor
  · simp [data, toMonthly_annual]
  · simp [resultViewGross]

/-- C3 counterexample: the CLI `solveGrossFromNet` returns its 20th iterate
without any clamp, so a negative target yields a negative result — the
claimed non-negativity clamp is absent there. -/
theorem solveGross_unclamped_negative : solveGrossFromNet (-(10 ^ 9)) 0 false < 0 := by
  norm_num [solveGrossFromNet, solveLoop, netOfGross, clampInsuranceBase, sumRates,
    EmployeeInsurance, PersonalDeduction, DependentDeduction, InsuranceCap, maxQ,
    calculateTaxOver, TaxBrackets, appliedAmount, minQ]

/-- C3 (amended): both solvers are fixed-budget: they seed the iteration with
`gross = targetNet` and perform exactly 20 unconditional residual corrections
`gross += targetNet - net(gross)` with no convergence check or early exit.
The web version clamps the final iterate to be non-negative; the CLI version
returns it unclamped. -/
theorem solveGross_fixed_budget (tN d : ℚ) (e : Bool) :
    solveGrossFromNet tN d e =
      (fun g => g + (tN - grossToNetGo g d e))^[20] tN ∧
    solveGrossFromNetTS tN d e =
      maxQ 0 ((fun g => g + (tN - grossToNet g d e))^[20] tN) := by
  have key : ∀ (bs : List TaxBracket) (n : ℕ) (g : ℚ), solveLoop bs tN d e n g =
      (fun x => x + (tN - netOfGross bs x d e))^[n] g := by
    intro bs n
    induction n with
    | zero => intro g; simp [solveLoop]
    | succ n ih =>
      intro g
      rw [Function.iterate_succ_apply]
      simp only [solveLoop]
      exact ih _
  constructor
  · rw [solveGrossFromNet, key TaxBrackets 20 tN]; rfl
  · rw [solveGrossFromNetTS, key TAX_BRACKETS 20 tN]; rfl

/-- C2 counterexample: the claim quantifies over every non-negative target,
but the fixed 20-iteration budget leaves an error that grows with the target;
at a target net of 10^13 the recovered net misses by roughly 2,663 VND. -/
theorem roundTrip_fails_large_target :
    ¬ (|grossToNet (solveGrossFromNetTS (10 ^ 13) 0 true) 0 true - 10 ^ 13| ≤ 1) := by
  norm_num [grossToNet, solveGrossFromNetTS, solveLoop, netOfGross,
    clampInsuranceBase, sumRates, EmployeeInsurance, PersonalDeduction,
    DependentDeduction, InsuranceCap, maxQ, calculateTaxOver, TAX_BRACKETS,
    appliedAmount, minQ, abs]

/-- C2 (amended): for every target net between 0 and 90,000,000 VND, any
non-negative dependent count and either insurance flag, feeding the solved
gross back through the forward gross→net computation recovers the target to
within 1 VND. -/
theorem solveGross_roundTrip (tN d : ℚ) (e : Bool) (h0 : 0 ≤ tN) (hd : 0 ≤ d)
    (hB : tN ≤ 90000000) :
    |grossToNet (solveGrossFromNetTS tN d e) d e - tN| ≤ 1 := by
  obtain ⟨hpos, herr⟩ := roundTrip_core goodBrackets_ts e h0 hd hB
  have hval : solveGrossFromNetTS tN d e = solveLoop TAX_BRACKETS tN d e 20 tN := by
    rw [solveGrossFromNetTS, maxQ_zero_eq_of_nonneg hpos]
  rw [hval]
  exact herr

/-- C2 witness at a target net of 20,000,000 with no dependents and insurance on. -/
theorem solveGross_roundTrip_witness :
    |grossToNet (solveGrossFromNetTS 20000000 0 true) 0 true - 20000000| ≤ 1 :=
  solveGross_roundTrip 20000000 0 true (by norm_num) (by norm_num) (by norm_num)

/-! ## C9: non-negativity of every monetary output -/

theorem data_insuranceBase_eq (mode : SalaryMode) (period : Period) (I d : ℚ)
    (e : Bool) : (data mode period I d e).insuranceBase =
      clampInsuranceBaseTS (data mode period I d e).grossMonthly e := rfl

theorem data_employeeInsurance_eq (mode : SalaryMode) (period : Period) (I d : ℚ)
    (e : Bool) : (data mode period I d e).employeeInsurance =
      (data mode period I d e).insuranceBase * sumRates EmployeeInsurance := rfl

theorem data_employerInsurance_eq (mode : SalaryMode) (period : Period) (I d : ℚ)
    (e : Bool) : (data mode period I d e).employerInsurance =
      (data mode period I d e).insuranceBase * sumRates EmployerInsurance := rfl

theorem data_totalDeductions_eq (mode : SalaryMode) (period : Period) (I d : ℚ)
    (e : Bool) : (data mode period I d e).totalDeductions =
      PersonalDeduction + d * DependentDeduction +
        (data mode period I d e).employeeInsurance := rfl

theorem data_taxableIncome_eq (mode : SalaryMode) (period : Period) (I d : ℚ)
    (e : Bool) : (data mode period I d e).taxableIncome =
      maxQ 0 ((data mode period I d e).grossMonthly -
        (data mode period I d e).totalDeductions) := rfl

theorem data_breakdown_eq (mode : SalaryMode) (period : Period) (I d : ℚ)
    (e : Bool) : (data mode period I d e).breakdown =
      (calculateTaxBreakdown (data mode period I d e).taxableIncome).1 := rfl

theorem data_totalTax_eq (mode : SalaryMode) (period : Period) (I d : ℚ)
    (e : Bool) : (data mode period I d e).totalTax =
      (calculateTaxBreakdown (data mode period I d e).taxableIncome).2 := rfl

theorem data_netMonthly_eq (mode : SalaryMode) (period : Period) (I d : ℚ)
    (e : Bool) : (data mode period I d e).netMonthly =
      (data mode period I d e).grossMonthly -
        (data mode period I d e).employeeInsurance -
        (data mode period I d e).totalTax := rfl

theorem data_totalLaborCost_eq (mode : SalaryMode) (period : Period) (I d : ℚ)
    (e : Bool) : (data mode period I d e).totalLaborCost =
      (data mode period I d e).grossMonthly +
        (data mode period I d e).employerInsurance := rfl

/-- C9: for every non-negative income, non-negative dependent count, period,
mode and insurance flag, every monetary field of the computed result is
non-negative; in particular the net monthly salary
`grossMonthly - employeeInsurance - totalTax` never drops below zero. -/
theorem data_outputs_nonneg (mode : SalaryMode) (period : Period) {I d : ℚ}
    (e : Bool) (hI : 0 ≤ I) (hd : 0 ≤ d) :
    0 ≤ (data mode period I d e).grossMonthly ∧
    0 ≤ (data mode period I d e).insuranceBase ∧
    0 ≤ (data mode period I d e).employeeInsurance ∧
    0 ≤ (data mode period I d e).employerInsurance ∧
    0 ≤ (data mode period I d e).totalDeductions ∧
    0 ≤ (data mode period I d e).taxableIncome ∧
    (∀ x ∈ (data mode period I d e).breakdown, 0 ≤ x.taxable ∧ 0 ≤ x.tax) ∧
    0 ≤ (data mode period I d e).totalTax ∧
    (data mode period I d e).netMonthly =
      (data mode period I d e).grossMonthly -
        (data mode period I d e).employeeInsurance -
        (data mode period I d e).totalTax ∧
    0 ≤ (data mode period I d e).netMonthly ∧
    0 ≤ (data mode period I d e).totalLaborCost := by
  have hgM := data_grossMonthly_nonneg mode period d e hI
  have hc : 0 ≤ PersonalDeduction + d * DependentDeduction := by
    have : 0 ≤ d * DependentDeduction :=
      mul_nonneg hd (by norm_num [DependentDeduction])
    norm_num [PersonalDeduction]
    linarith
  have hbase0 : 0 ≤ (data mode period I d e).insuranceBase := by
    rw [data_insuranceBase_eq, clampTS_eq]
    exact clamp_nonneg e hgM
  have hins_emp : (data mode period I d e).employeeInsurance =
      insAmt e (data mode period I d e).grossMonthly := by
    rw [data_employeeInsurance_eq, data_insuranceBase_eq, clampTS_eq, insAmt]
  have hemp0 : 0 ≤ (data mode period I d e).employeeInsurance := by
    rw [hins_emp]
    exact insAmt_nonneg e hgM
  have hempr0 : 0 ≤ (data mode period I d e).employerInsurance := by
    rw [data_employerInsurance_eq, sumRates_employer]
    nlinarith
  have htot_eq := data_totalDeductions_eq mode period I d e
  have htot0 : 0 ≤ (data mode period I d e).totalDeductions := by
    rw [htot_eq]
    linarith
  have htax_eq : (data mode period I d e).taxableIncome =
      taxableAmt (PersonalDeduction + d * DependentDeduction) e
        (data mode period I d e).grossMonthly := by
    rw [data_taxableIncome_eq, htot_eq, hins_emp, taxableAmt]
  have htaxable0 : 0 ≤ (data mode period I d e).taxableIncome := by
    rw [data_taxableIncome_eq]
    exact maxQ_zero_nonneg _
  have hbreak : ∀ x ∈ (data mode period I d e).breakdown, 0 ≤ x.taxable ∧ 0 ≤ x.tax := by
    intro x hx
    rw [data_breakdown_eq, calculateTaxBreakdown] at hx
    obtain ⟨h1, h2, _⟩ := taxOver_lines_pos goodBrackets_ts _ x hx
    exact ⟨le_of_lt h1, h2⟩
  have htax0 : 0 ≤ (data mode period I d e).totalTax := by
    rw [data_totalTax_eq, calculateTaxBreakdown]
    exact taxOver_nonneg goodBrackets_ts _
  have hinsle : insAmt e (data mode period I d e).grossMonthly ≤
      21/200 * (data mode period I d e).grossMonthly := insAmt_le_self e hgM
  have htaxle : (data mode period I d e).taxableIncome ≤
      (data mode period I d e).grossMonthly -
        insAmt e (data mode period I d e).grossMonthly := by
    rw [htax_eq, taxableAmt]
    exact maxQ_zero_le (by linarith) (by linarith)
  have htaxtax : (data mode period I d e).totalTax ≤
      7/20 * (data mode period I d e).taxableIncome := by
    rw [data_totalTax_eq, calculateTaxBreakdown]
    exact taxOver_le_rate goodBrackets_ts htaxable0
  have hnet_eq := data_netMonthly_eq mode period I d e
  have hnet0 : 0 ≤ (data mode period I d e).netMonthly := by
    rw [hnet_eq, hins_emp]
    linarith
  have hlab0 : 0 ≤ (data mode period I d e).totalLaborCost := by
    rw [data_totalLaborCost_eq]
    linarith
  exact ⟨hgM, hbase0, hemp0, hempr0, htot0, htaxable0, hbreak, htax0, hnet_eq,
    hnet0, hlab0⟩

/-- C9 witness at a 20,000,000 gross monthly input with no dependents. -/
theorem data_outputs_nonneg_witness :
    0 ≤ (data SalaryMode.gross Period.monthly 20000000 0 true).grossMonthly ∧
    0 ≤ (data SalaryMode.gross Period.monthly 20000000 0 true).insuranceBase ∧
    0 ≤ (data SalaryMode.gross Period.monthly 20000000 0 true).employeeInsurance ∧
    0 ≤ (data SalaryMode.gross Period.monthly 20000000 0 true).employerInsurance ∧
    0 ≤ (data SalaryMode.gross Period.monthly 20000000 0 true).totalDeductions ∧
    0 ≤ (data SalaryMode.gross Period.monthly 20000000 0 true).taxableIncome ∧
    (∀ x ∈ (data SalaryMode.gross Period.monthly 20000000 0 true).breakdown,
      0 ≤ x.taxable ∧ 0 ≤ x.tax) ∧
    0 ≤ (data SalaryMode.gross Period.monthly 20000000 0 true).totalTax ∧
    (data SalaryMode.gross Period.monthly 20000000 0 true).netMonthly =
      (data SalaryMode.gross Period.monthly 20000000 0 true).grossMonthly -
        (data SalaryMode.gross Period.monthly 20000000 0 true).employeeInsurance -
        (data SalaryMode.gross Period.monthly 20000000 0 true).totalTax ∧
    0 ≤ (data SalaryMode.gross Period.monthly 20000000 0 true).netMonthly ∧
    0 ≤ (data SalaryMode.gross Period.monthly 20000000 0 true).totalLaborCost :=
  data_outputs_nonneg SalaryMode.gross Period.monthly true (by norm_num) (by norm_num)
